import Mathlib

/-!
Verification of the surface-mesh / closest-point-projection core of the
fractal-tree repository (`src/fractal_tree/Mesh.py`).

The embedding models the numpy float arrays by exact real arithmetic:
vectors in 3-space are `Vec3` with real components, `np.linalg.norm` is
`Real.sqrt` of the dot square, and division by zero (numpy would produce
NaN/inf) is the Lean convention `x / 0 = 0`.  The `collections.defaultdict`
`node_to_tri` is modelled as an insertion-ordered association list together
with the defaultdict `__getitem__` semantics (a missing key is inserted
with an empty list), since that observable mutation is part of the code's
behaviour.
-/

namespace FractalTree

/-! ### The integer layer: `node_to_tri` (a `collections.defaultdict(list)`) -/

/-- An insertion-ordered association list from vertex index to the list of
incident triangle indices; this models the Python `dict` (which preserves
insertion order). -/
abbrev NodeToTri := List (Nat × List Nat)

/-- Plain dictionary lookup (`k in d` / `d[k]` when the key is present). -/
def lookupNtt : NodeToTri → Nat → Option (List Nat)
  | [], _ => none
  | (k, l) :: rest, v => if k = v then some l else lookupNtt rest v

/-- Models `self.node_to_tri[k].append(i)` on a `defaultdict(list)`: if the
key is present the triangle index is appended to its list in place, else a
fresh entry `(k, [i])` is created at the end (dict insertion order). -/
def ddAppend : NodeToTri → Nat → Nat → NodeToTri
  | [], k, i => [(k, [i])]
  | (k', l) :: rest, k, i =>
      if k' = k then (k', l ++ [i]) :: rest else (k', l) :: ddAppend rest k i

/-- Models the read `triangles = self.node_to_tri[node]` on a
`defaultdict(list)`: returns the stored list when the key is present, and
otherwise returns `[]` while inserting the entry `(node, [])` at the end of
the dictionary (the defaultdict side effect). -/
def dget (d : NodeToTri) (k : Nat) : List Nat × NodeToTri :=
  match lookupNtt d k with
  | some l => (l, d)
  | none => ([], d ++ [(k, [])])

/-- One iteration of the construction loop's adjacency part: for triangle
`c` with index `i`, `self.node_to_tri[self.connectivity[i, j]].append(i)`
for `j = 0, 1, 2`. -/
def triStep (d : NodeToTri) (c : Nat × Nat × Nat) (i : Nat) : NodeToTri :=
  ddAppend (ddAppend (ddAppend d c.1 i) c.2.1 i) c.2.2 i

/-- The construction loop `for i in range(len(self.connectivity))`
restricted to its `node_to_tri` effect, starting from dictionary `d` at
triangle index `i`. -/
def buildNttFrom (d : NodeToTri) (i : Nat) : List (Nat × Nat × Nat) → NodeToTri
  | [] => d
  | c :: rest => buildNttFrom (triStep d c i) (i + 1) rest

/-- The `node_to_tri` dictionary produced by `Mesh.__init__` from the
connectivity array. -/
def buildNtt (conn : List (Nat × Nat × Nat)) : NodeToTri :=
  buildNttFrom [] 0 conn

/-- The three vertex indices of a connectivity row, as a list. -/
def triIdx (c : Nat × Nat × Nat) : List Nat := [c.1, c.2.1, c.2.2]

/-- Membership of triangle `t` in the adjacency list of vertex `v` (an
absent key reads as the empty list). -/
def memNtt (d : NodeToTri) (v t : Nat) : Prop := t ∈ (lookupNtt d v).getD []

/-- Invariant for the non-strict ordering of adjacency lists: every stored
list is ascending and bounded by the number of processed triangles. -/
def InvLe (d : NodeToTri) (i : Nat) : Prop :=
  ∀ v l, lookupNtt d v = some l → l.Sorted (· ≤ ·) ∧ ∀ x ∈ l, x < i

/-- Strict version, used when every triangle has pairwise-distinct vertex
indices. -/
def InvLt (d : NodeToTri) (i : Nat) : Prop :=
  ∀ v l, lookupNtt d v = some l → l.Sorted (· < ·) ∧ ∀ x ∈ l, x < i

/-! ### The geometric layer -/

/-- A vector in 3-space with exact real components, modelling a row of a
numpy float array. -/
@[ext]
structure Vec3 where
  x : ℝ
  y : ℝ
  z : ℝ

namespace Vec3

instance : Zero Vec3 := ⟨⟨0, 0, 0⟩⟩
instance : Add Vec3 := ⟨fun a b => ⟨a.x + b.x, a.y + b.y, a.z + b.z⟩⟩
instance : Sub Vec3 := ⟨fun a b => ⟨a.x - b.x, a.y - b.y, a.z - b.z⟩⟩
instance : Neg Vec3 := ⟨fun a => ⟨-a.x, -a.y, -a.z⟩⟩
instance : SMul ℝ Vec3 := ⟨fun r a => ⟨r * a.x, r * a.y, r * a.z⟩⟩

end Vec3

/-- Dot product (`np.dot`). -/
def dot (a b : Vec3) : ℝ := a.x * b.x + a.y * b.y + a.z * b.z

/-- Cross product (`np.cross`). -/
def cross (a b : Vec3) : Vec3 :=
  ⟨a.y * b.z - a.z * b.y, a.z * b.x - a.x * b.z, a.x * b.y - a.y * b.x⟩

/-- Euclidean norm (`np.linalg.norm`). -/
noncomputable def vnorm (v : Vec3) : ℝ := Real.sqrt (dot v v)

/-- Normalization `v / np.linalg.norm(v)`; for the zero vector the Lean
convention gives the zero vector (numpy would give NaN components). -/
noncomputable def unitize (v : Vec3) : Vec3 := (vnorm v)⁻¹ • v

/-! ### The mesh aggregate (`Mesh.__init__`) -/

/-- The `Mesh` aggregate: vertex positions, triangle connectivity, derived
per-triangle normals, and the vertex-to-triangle `defaultdict`.  The scipy
`cKDTree` field is not stored: it is a pure function of `verts`, modelled
by `nearestIdx` below. -/
structure Mesh where
  verts : List Vec3
  connectivity : List (Nat × Nat × Nat)
  normals : List Vec3
  node_to_tri : NodeToTri

/-- The raw (unnormalized) triangle normal
`n = np.cross(verts[c1] - verts[c0], verts[c2] - verts[c0])`. -/
noncomputable def rawNormal (verts : List Vec3) (c : Nat × Nat × Nat) : Vec3 :=
  cross (verts.getD c.2.1 0 - verts.getD c.1 0) (verts.getD c.2.2 0 - verts.getD c.1 0)

/-- `Mesh.__init__` from the raw vertex and connectivity arrays (the meshio
file reading is outside this core).  The single Python loop both appends to
`node_to_tri` and stores `normals[i] = n / np.linalg.norm(n)`; the two
effects touch disjoint state, so they are built here by `buildNtt` and a
`map` over the same index order.  There is no degeneracy check: the
division by the norm happens unconditionally. -/
noncomputable def mkMesh (verts : List Vec3) (conn : List (Nat × Nat × Nat)) : Mesh :=
  { verts := verts
    connectivity := conn
    normals := conn.map (fun c => unitize (rawNormal verts c))
    node_to_tri := buildNtt conn }

/-! ### The projection algorithm (`Mesh.project_new_point`) -/

/-- The message of the exception raised for a vertex with no incident
triangle. -/
def errMsg : String := "node not connected to triangles, check your mesh"

/-- Modelled from the spec: the SpatialIndex contract (`scipy.spatial.cKDTree
.query`, an external library): the index of the vertex closest to the query
point in Euclidean distance, ties broken by lowest index.  Distances are
compared squared, which orders identically to the Euclidean distance. -/
noncomputable def nearestIdx (verts : List Vec3) (p : Vec3) : Nat :=
  (List.range verts.length).foldl
    (fun best i =>
      if dot (verts.getD i 0 - p) (verts.getD i 0 - p) <
          dot (verts.getD best 0 - p) (verts.getD best 0 - p) then i else best) 0

/-- The candidate triangle list `triangles = self.node_to_tri[node]`
(first component of the defaultdict read). -/
noncomputable def candTris (m : Mesh) (p : Vec3) : List Nat :=
  (dget m.node_to_tri (nearestIdx m.verts p)).1

/-- The averaged-then-normalized vertex normal
`vertex_normal = np.sum(self.normals[triangles], axis=0)` followed by
`vertex_normal / np.linalg.norm(vertex_normal)`. -/
def sumNormals (m : Mesh) : List Nat → Vec3
  | [] => 0
  | t :: rest => m.normals.getD t 0 + sumNormals m rest

/-- The normalized vertex normal used for the pre-projection. -/
noncomputable def vertexNormal (m : Mesh) (p : Vec3) : Vec3 :=
  unitize (sumNormals m (candTris m p))

/-- The pre-projection of the query point onto the tangent plane through the
nearest vertex: `point - vertex_normal * np.dot(point - verts[node],
vertex_normal)`. -/
noncomputable def preP (m : Mesh) (p : Vec3) : Vec3 :=
  p - dot (p - m.verts.getD (nearestIdx m.verts p) 0) (vertexNormal m p) •
    vertexNormal m p

/-- The signed plane distance of candidate triangle `i`:
`CPP[i] = np.dot(pre_projected_point - verts[connectivity[i, 0]], normals[i])`. -/
noncomputable def cppVal (m : Mesh) (pre : Vec3) (i : Nat) : ℝ :=
  dot (pre - m.verts.getD (m.connectivity.getD i (0, 0, 0)).1 0) (m.normals.getD i 0)

open scoped Classical in
/-- The candidate list sorted by ascending `|CPP|`
(`order = np.abs(CPP).argsort()` followed by indexing `triangles`); argsort
is modelled as a stable ascending sort. -/
noncomputable def sortedTris (m : Mesh) (p : Vec3) : List Nat :=
  List.insertionSort
    (fun a b => |cppVal m (preP m p) a| ≤ |cppVal m (preP m p) b|) (candTris m p)

/-- The per-candidate plane projection assigned by a loop iteration:
`projected_point = pre_projected_point - CPP[o] * normals[i]`. -/
noncomputable def projPt (m : Mesh) (p : Vec3) (i : Nat) : Vec3 :=
  preP m p - cppVal m (preP m p) i • m.normals.getD i 0

/-- First vertex position of triangle `i` (`verts[connectivity[i, 0]]`). -/
noncomputable def triA (m : Mesh) (i : Nat) : Vec3 :=
  m.verts.getD (m.connectivity.getD i (0, 0, 0)).1 0

/-- Second vertex position of triangle `i` (`verts[connectivity[i, 1]]`). -/
noncomputable def triB (m : Mesh) (i : Nat) : Vec3 :=
  m.verts.getD (m.connectivity.getD i (0, 0, 0)).2.1 0

/-- Third vertex position of triangle `i` (`verts[connectivity[i, 2]]`). -/
noncomputable def triC (m : Mesh) (i : Nat) : Vec3 :=
  m.verts.getD (m.connectivity.getD i (0, 0, 0)).2.2 0

/-- Edge vector `u = verts[connectivity[i, 1]] - verts[connectivity[i, 0]]`. -/
noncomputable def edgeU (m : Mesh) (i : Nat) : Vec3 := triB m i - triA m i

/-- Edge vector `v = verts[connectivity[i, 2]] - verts[connectivity[i, 0]]`. -/
noncomputable def edgeV (m : Mesh) (i : Nat) : Vec3 := triC m i - triA m i

/-- The inside-triangle acceptance test of the loop body, for the already
plane-projected point `pp`: with `w = pp - verts[connectivity[i, 0]]`,
`vxw = v x w`, `vxu = v x u`, `uxw = u x w`, require
`sign_r = vxw . vxu >= 0`, `sign_t = uxw . (-vxu) >= 0`,
`r = |vxw|/|vxu| <= 1`, `t = |uxw|/|vxu| <= 1` and `r + t <= 1.001`
(the source checks the two signs first and the `r`, `t` bounds after, which
is the same conjunction since `r` and `t` are pure computations). -/
noncomputable def insideTest (m : Mesh) (pp : Vec3) (i : Nat) : Prop :=
  0 ≤ dot (cross (edgeV m i) (pp - triA m i)) (cross (edgeV m i) (edgeU m i)) ∧
  0 ≤ dot (cross (edgeU m i) (pp - triA m i)) (-(cross (edgeV m i) (edgeU m i))) ∧
  vnorm (cross (edgeV m i) (pp - triA m i)) / vnorm (cross (edgeV m i) (edgeU m i)) ≤ 1 ∧
  vnorm (cross (edgeU m i) (pp - triA m i)) / vnorm (cross (edgeV m i) (edgeU m i)) ≤ 1 ∧
  vnorm (cross (edgeV m i) (pp - triA m i)) / vnorm (cross (edgeV m i) (edgeU m i)) +
    vnorm (cross (edgeU m i) (pp - triA m i)) / vnorm (cross (edgeV m i) (edgeU m i)) ≤ 1.001

open scoped Classical in
/-- The candidate loop `for o in order`: each iteration assigns
`projected_point = pre - CPP[o] * normals[i]`, and breaks with
`intriangle = i` at the first acceptance; if no candidate is accepted the
loop falls through with `intriangle = -1` and `projected_point` holding the
value assigned by the **last** iteration.  The `last` argument carries the
most recently assigned `projected_point` (unused before the first
iteration, matching the Python variable being unassigned there). -/
noncomputable def projectLoop (m : Mesh) (pre : Vec3) : List Nat → Vec3 → Vec3 × ℤ
  | [], last => (last, -1)
  | i :: rest, _ =>
      if insideTest m (pre - cppVal m pre i • m.normals.getD i 0) i then
        (pre - cppVal m pre i • m.normals.getD i 0, (i : ℤ))
      else
        projectLoop m pre rest (pre - cppVal m pre i • m.normals.getD i 0)

open scoped Classical in
/-- `Mesh.project_new_point`.  The first component is the returned value
(`Except.error` models the raised exception), the second is the mesh as it
is after the call: the defaultdict read `self.node_to_tri[node]` inserts
the entry `(node, [])` when the key is missing, so the node_to_tri field
can differ from the input mesh's. -/
noncomputable def project_new_point (m : Mesh) (point : Vec3) :
    Except String (Vec3 × ℤ) × Mesh :=
  let node := nearestIdx m.verts point
  let afterRead : Mesh := { m with node_to_tri := (dget m.node_to_tri node).2 }
  if candTris m point = [] then
    (Except.error errMsg, afterRead)
  else
    (Except.ok (projectLoop m (preP m point) (sortedTris m point) point), afterRead)

/-! ### Concrete meshes

`quadMesh` is the planar unit quad of the spec's concrete scenario:
two coplanar triangles `t0 = (v0, v1, v2)` and `t1 = (v0, v2, v3)`, both
with unit normal `(0, 0, 1)`. -/

def quadConn : List (Nat × Nat × Nat) := [(0, 1, 2), (0, 2, 3)]

noncomputable def quadVerts : List Vec3 :=
  [⟨0, 0, 0⟩, ⟨1, 0, 0⟩, ⟨1, 1, 0⟩, ⟨0, 1, 0⟩]

noncomputable def quadMesh : Mesh := mkMesh quadVerts quadConn

/-- A mesh whose vertex 0 carries three incident triangles: `t0` in the
plane `z = 0` (unit normal `(0,0,1)`), `t1` with unit normal
`(4/5, 0, 3/5)` and `t2` with unit normal `(-4/5, 0, 3/5)`; used to
exercise the no-acceptance fallback with three distinct plane distances. -/
def fanConn : List (Nat × Nat × Nat) := [(0, 1, 2), (0, 1, 3), (0, 1, 4)]

noncomputable def fanVerts : List Vec3 :=
  [⟨0, 0, 0⟩, ⟨0, -1, 0⟩, ⟨1, -1, 0⟩, ⟨3, -1, -4⟩, ⟨3, -1, 4⟩]

noncomputable def fanMesh : Mesh := mkMesh fanVerts fanConn

/-- A mesh with an isolated vertex: vertex 0 belongs to no triangle, the
single triangle uses vertices 1, 2, 3. -/
def isoConn : List (Nat × Nat × Nat) := [(1, 2, 3)]

noncomputable def isoVerts : List Vec3 :=
  [⟨10, 0, 0⟩, ⟨0, 0, 0⟩, ⟨1, 0, 0⟩, ⟨0, 1, 0⟩]

noncomputable def isoMesh : Mesh := mkMesh isoVerts isoConn

/-- A degenerate mesh: the single triangle has collinear vertices, so its
raw cross-product normal is the zero vector. -/
def degConn : List (Nat × Nat × Nat) := [(0, 1, 2)]

noncomputable def degVerts : List Vec3 :=
  [⟨0, 0, 0⟩, ⟨1, 0, 0⟩, ⟨2, 0, 0⟩]

noncomputable def degMesh : Mesh := mkMesh degVerts degConn

/-- The spec's first query point `(0.5, 0.5, 5)`. -/
noncomputable def qA : Vec3 := ⟨1/2, 1/2, 5⟩

/-- The spec's second query point `(0.2, 0.2, 3)`. -/
noncomputable def qB : Vec3 := ⟨1/5, 1/5, 3⟩

/-- Query point `(1, 5, 3)` whose pre-projection `(1, 5, 0)` lies outside
all three candidate triangles of the fan mesh. -/
noncomputable def qF : Vec3 := ⟨1, 5, 3⟩

/-- Query point at the isolated vertex of `isoMesh` (its own position), so
the nearest vertex has no incident triangle. -/
noncomputable def qI : Vec3 := ⟨10, 0, 0⟩

/-! ### Lemmas -/

namespace Vec3

@[simp] lemma zero_x : (0 : Vec3).x = 0 := rfl
@[simp] lemma zero_y : (0 : Vec3).y = 0 := rfl
@[simp] lemma zero_z : (0 : Vec3).z = 0 := rfl
@[simp] lemma add_x (a b : Vec3) : (a + b).x = a.x + b.x := rfl
@[simp] lemma add_y (a b : Vec3) : (a + b).y = a.y + b.y := rfl
@[simp] lemma add_z (a b : Vec3) : (a + b).z = a.z + b.z := rfl
@[simp] lemma sub_x (a b : Vec3) : (a - b).x = a.x - b.x := rfl
@[simp] lemma sub_y (a b : Vec3) : (a - b).y = a.y - b.y := rfl
@[simp] lemma sub_z (a b : Vec3) : (a - b).z = a.z - b.z := rfl
@[simp] lemma neg_x (a : Vec3) : (-a).x = -a.x := rfl
@[simp] lemma neg_y (a : Vec3) : (-a).y = -a.y := rfl
@[simp] lemma neg_z (a : Vec3) : (-a).z = -a.z := rfl
@[simp] lemma smul_x (r : ℝ) (a : Vec3) : (r • a).x = r * a.x := rfl
@[simp] lemma smul_y (r : ℝ) (a : Vec3) : (r • a).y = r * a.y := rfl
@[simp] lemma smul_z (r : ℝ) (a : Vec3) : (r • a).z = r * a.z := rfl
@[simp] lemma mk_x (a b c : ℝ) : (Vec3.mk a b c).x = a := rfl
@[simp] lemma mk_y (a b c : ℝ) : (Vec3.mk a b c).y = b := rfl
@[simp] lemma mk_z (a b c : ℝ) : (Vec3.mk a b c).z = c := rfl


end Vec3

/-! Basic algebraic facts about the vector operations. -/

lemma vec_sub_self (a : Vec3) : a - a = 0 := by ext <;> simp

lemma vec_sub_zero (a : Vec3) : a - 0 = a := by ext <;> simp

lemma zero_smul_vec (a : Vec3) : (0 : ℝ) • a = 0 := by ext <;> simp

@[simp] lemma dot_zero_left (a : Vec3) : dot 0 a = 0 := by simp [dot]

@[simp] lemma dot_zero_right (a : Vec3) : dot a 0 = 0 := by simp [dot]

lemma dot_smul_right (a : Vec3) (r : ℝ) (b : Vec3) :
    dot a (r • b) = r * dot a b := by simp [dot]; ring

lemma dot_self_nonneg (a : Vec3) : 0 ≤ dot a a := by
  simp only [dot]
  nlinarith [mul_self_nonneg a.x, mul_self_nonneg a.y, mul_self_nonneg a.z]

lemma dot_self_eq_zero_iff (a : Vec3) : dot a a = 0 ↔ a = 0 := by
  constructor
  · intro h
    simp only [dot] at h
    have hx : a.x = 0 := by nlinarith [sq_nonneg a.x, sq_nonneg a.y, sq_nonneg a.z]
    have hy : a.y = 0 := by nlinarith [sq_nonneg a.x, sq_nonneg a.y, sq_nonneg a.z]
    have hz : a.z = 0 := by nlinarith [sq_nonneg a.x, sq_nonneg a.y, sq_nonneg a.z]
    ext <;> simp [hx, hy, hz]
  · rintro rfl; simp

lemma cross_self (a : Vec3) : cross a a = 0 := by
  ext <;> simp [cross] <;> ring

lemma cross_zero_right (a : Vec3) : cross a 0 = 0 := by
  ext <;> simp [cross]

lemma cross_anticomm (a b : Vec3) : cross a b = -(cross b a) := by
  ext <;> (simp only [cross, Vec3.mk_x, Vec3.mk_y, Vec3.mk_z, Vec3.neg_x,
    Vec3.neg_y, Vec3.neg_z]; ring)

lemma dot_cross_left (a b : Vec3) : dot a (cross a b) = 0 := by
  simp [dot, cross]; ring

lemma dot_cross_right (a b : Vec3) : dot b (cross a b) = 0 := by
  simp [dot, cross]; ring

lemma vnorm_zero : vnorm 0 = 0 := by simp [vnorm, Real.sqrt_zero]

lemma vnorm_neg (a : Vec3) : vnorm (-a) = vnorm a := by
  have : dot (-a) (-a) = dot a a := by simp only [dot, Vec3.neg_x, Vec3.neg_y, Vec3.neg_z]; ring
  simp [vnorm, this]

lemma vnorm_eq_zero_iff (a : Vec3) : vnorm a = 0 ↔ a = 0 := by
  rw [vnorm, Real.sqrt_eq_zero (dot_self_nonneg a)]
  exact dot_self_eq_zero_iff a

lemma dget_fst (d : NodeToTri) (k : Nat) :
    (dget d k).1 = (lookupNtt d k).getD [] := by
  unfold dget
  cases lookupNtt d k <;> rfl

lemma dget_snd_of_some (d : NodeToTri) (k : Nat) (l : List Nat)
    (h : lookupNtt d k = some l) : (dget d k).2 = d := by
  unfold dget; rw [h]

lemma dget_snd_of_none (d : NodeToTri) (k : Nat)
    (h : lookupNtt d k = none) : (dget d k).2 = d ++ [(k, [])] := by
  unfold dget; rw [h]

lemma lookup_ddAppend (d : NodeToTri) (k i v : Nat) :
    lookupNtt (ddAppend d k i) v =
      if v = k then some (((lookupNtt d k).getD []) ++ [i]) else lookupNtt d v := by
  induction d with
  | nil =>
      by_cases h : k = v
      · subst h; simp [ddAppend, lookupNtt]
      · simp [ddAppend, lookupNtt, h, Ne.symm h]
  | cons hd rest ih =>
      obtain ⟨k', l⟩ := hd
      by_cases h1 : k' = k
      · subst h1
        by_cases h2 : k' = v
        · subst h2; simp [ddAppend, lookupNtt]
        · simp [ddAppend, lookupNtt, h2, Ne.symm h2]
      · by_cases h2 : k' = v
        · subst h2
          have hvk : ¬(k' = k) := h1
          simp [ddAppend, lookupNtt, h1, Ne.symm h1]
        · simp [ddAppend, lookupNtt, h1, h2, ih]

lemma memNtt_ddAppend (d : NodeToTri) (k i v t : Nat) :
    memNtt (ddAppend d k i) v t ↔ memNtt d v t ∨ (v = k ∧ t = i) := by
  unfold memNtt
  rw [lookup_ddAppend]
  by_cases h : v = k
  · subst h; simp
  · simp [h]

lemma memNtt_triStep (d : NodeToTri) (c : Nat × Nat × Nat) (i v t : Nat) :
    memNtt (triStep d c i) v t ↔ memNtt d v t ∨ (v ∈ triIdx c ∧ t = i) := by
  unfold triStep triIdx
  simp only [memNtt_ddAppend, List.mem_cons, List.mem_singleton,
    List.not_mem_nil, or_false]
  tauto

lemma memNtt_buildNttFrom :
    ∀ (cs : List (Nat × Nat × Nat)) (d : NodeToTri) (i0 v t : Nat),
      memNtt (buildNttFrom d i0 cs) v t ↔
        memNtt d v t ∨
          ∃ j, j < cs.length ∧ t = i0 + j ∧ v ∈ triIdx (cs.getD j (0, 0, 0))
  | [], d, i0, v, t => by simp [buildNttFrom]
  | c :: rest, d, i0, v, t => by
      rw [buildNttFrom, memNtt_buildNttFrom rest, memNtt_triStep]
      constructor
      · rintro ((h | ⟨hv, rfl⟩) | ⟨j, hj, heq, hv⟩)
        · exact Or.inl h
        · exact Or.inr ⟨0, by simp, by omega, by simpa using hv⟩
        · refine Or.inr ⟨j + 1, by simpa using hj, by omega, ?_⟩
          simpa using hv
      · rintro (h | ⟨j, hj, heq, hv⟩)
        · exact Or.inl (Or.inl h)
        · cases j with
          | zero =>
              refine Or.inl (Or.inr ⟨by simpa using hv, by omega⟩)
          | succ j =>
              refine Or.inr ⟨j, by simp at hj; omega, by omega, ?_⟩
              simpa using hv

lemma memNtt_buildNtt (conn : List (Nat × Nat × Nat)) (v t : Nat) :
    memNtt (buildNtt conn) v t ↔
      t < conn.length ∧ v ∈ triIdx (conn.getD t (0, 0, 0)) := by
  rw [buildNtt, memNtt_buildNttFrom]
  have hnil : ¬ memNtt [] v t := by simp [memNtt, lookupNtt]
  constructor
  · rintro (h | ⟨j, hj, heq, hv⟩)
    · exact absurd h hnil
    · have ht : t = j := by omega
      subst ht
      exact ⟨hj, hv⟩
  · rintro ⟨ht, hv⟩
    exact Or.inr ⟨t, ht, by omega, hv⟩

/-- Appending a strictly larger element to an ascending list keeps it
ascending. -/
lemma sorted_append_bound {r : Nat → Nat → Prop} (l0 : List Nat) (i : Nat)
    (h1 : l0.Sorted r) (h2 : ∀ x ∈ l0, r x i) : (l0 ++ [i]).Sorted r := by
  rw [List.Sorted, List.pairwise_append]
  exact ⟨h1, by simp, fun a ha b hb => by
    rw [List.mem_singleton] at hb; subst hb; exact h2 a ha⟩

lemma invLe_ddAppend (d : NodeToTri) (k i : Nat)
    (h : ∀ v l, lookupNtt d v = some l → l.Sorted (· ≤ ·) ∧ ∀ x ∈ l, x ≤ i) :
    ∀ v l, lookupNtt (ddAppend d k i) v = some l →
      l.Sorted (· ≤ ·) ∧ ∀ x ∈ l, x ≤ i := by
  intro v l hl
  rw [lookup_ddAppend] at hl
  by_cases hv : v = k
  · rw [if_pos hv, Option.some.injEq] at hl
    subst hl
    have hbase : ((lookupNtt d k).getD []).Sorted (· ≤ ·) ∧
        ∀ x ∈ (lookupNtt d k).getD [], x ≤ i := by
      cases hdk : lookupNtt d k with
      | none => simp
      | some l0 => simpa using h k l0 hdk
    refine ⟨sorted_append_bound _ _ hbase.1 hbase.2, ?_⟩
    intro x hx
    rcases List.mem_append.mp hx with hx | hx
    · exact hbase.2 x hx
    · rw [List.mem_singleton] at hx; omega
  · rw [if_neg hv] at hl
    exact h v l hl

lemma invLe_triStep (d : NodeToTri) (c : Nat × Nat × Nat) (i : Nat)
    (h : InvLe d i) : InvLe (triStep d c i) (i + 1) := by
  have h0 : ∀ v l, lookupNtt d v = some l → l.Sorted (· ≤ ·) ∧ ∀ x ∈ l, x ≤ i :=
    fun v l hl => ⟨(h v l hl).1, fun x hx => Nat.le_of_lt ((h v l hl).2 x hx)⟩
  have h1 := invLe_ddAppend d c.1 i h0
  have h2 := invLe_ddAppend _ c.2.1 i h1
  have h3 := invLe_ddAppend _ c.2.2 i h2
  intro v l hl
  obtain ⟨hs, hb⟩ := h3 v l hl
  exact ⟨hs, fun x hx => Nat.lt_succ_of_le (hb x hx)⟩

lemma invLe_buildNttFrom :
    ∀ (cs : List (Nat × Nat × Nat)) (d : NodeToTri) (i : Nat),
      InvLe d i → InvLe (buildNttFrom d i cs) (i + cs.length)
  | [], d, i, h => by simpa [buildNttFrom] using h
  | c :: rest, d, i, h => by
      rw [buildNttFrom]
      have := invLe_buildNttFrom rest (triStep d c i) (i + 1) (invLe_triStep d c i h)
      have harith : i + 1 + rest.length = i + (c :: rest).length := by
        simp; omega
      rwa [harith] at this

lemma invLe_buildNtt (conn : List (Nat × Nat × Nat)) :
    InvLe (buildNtt conn) conn.length := by
  have h0 : InvLe [] 0 := fun v l hl => by simp [lookupNtt] at hl
  simpa using invLe_buildNttFrom conn [] 0 h0

lemma invLt_triStep (d : NodeToTri) (c : Nat × Nat × Nat) (i : Nat)
    (hdist : c.1 ≠ c.2.1 ∧ c.1 ≠ c.2.2 ∧ c.2.1 ≠ c.2.2)
    (h : InvLt d i) : InvLt (triStep d c i) (i + 1) := by
  intro v l hl
  unfold triStep at hl
  rw [lookup_ddAppend] at hl
  have base : ∀ w lw, lookupNtt d w = some lw →
      lw.Sorted (· < ·) ∧ ∀ x ∈ lw, x < i := h
  have happ : ∀ (w : Nat), (((lookupNtt d w).getD []) ++ [i]).Sorted (· < ·) ∧
      ∀ x ∈ ((lookupNtt d w).getD []) ++ [i], x < i + 1 := by
    intro w
    have hbase : ((lookupNtt d w).getD []).Sorted (· < ·) ∧
        ∀ x ∈ (lookupNtt d w).getD [], x < i := by
      cases hdw : lookupNtt d w with
      | none => simp
      | some l0 => simpa using base w l0 hdw
    refine ⟨sorted_append_bound _ _ hbase.1 hbase.2, ?_⟩
    intro x hx
    rcases List.mem_append.mp hx with hx | hx
    · exact Nat.lt_succ_of_lt (hbase.2 x hx)
    · rw [List.mem_singleton] at hx; omega
  by_cases hv3 : v = c.2.2
  · rw [if_pos hv3, Option.some.injEq] at hl
    subst hl
    have hlook : lookupNtt (ddAppend (ddAppend d c.1 i) c.2.1 i) c.2.2 =
        lookupNtt d c.2.2 := by
      rw [lookup_ddAppend, if_neg (Ne.symm hdist.2.2), lookup_ddAppend,
        if_neg (Ne.symm hdist.2.1)]
    rw [hlook]
    exact happ c.2.2
  · rw [if_neg hv3, lookup_ddAppend] at hl
    by_cases hv2 : v = c.2.1
    · rw [if_pos hv2, Option.some.injEq] at hl
      subst hl
      have hlook : lookupNtt (ddAppend d c.1 i) c.2.1 = lookupNtt d c.2.1 := by
        rw [lookup_ddAppend, if_neg (Ne.symm hdist.1)]
      rw [hlook]
      exact happ c.2.1
    · rw [if_neg hv2, lookup_ddAppend] at hl
      by_cases hv1 : v = c.1
      · rw [if_pos hv1, Option.some.injEq] at hl
        subst hl
        exact happ c.1
      · rw [if_neg hv1] at hl
        obtain ⟨hs, hb⟩ := base v l hl
        exact ⟨hs, fun x hx => Nat.lt_succ_of_lt (hb x hx)⟩

lemma invLt_buildNttFrom :
    ∀ (cs : List (Nat × Nat × Nat)) (d : NodeToTri) (i : Nat),
      (∀ c ∈ cs, c.1 ≠ c.2.1 ∧ c.1 ≠ c.2.2 ∧ c.2.1 ≠ c.2.2) →
      InvLt d i → InvLt (buildNttFrom d i cs) (i + cs.length)
  | [], d, i, _, h => by simpa [buildNttFrom] using h
  | c :: rest, d, i, hdist, h => by
      rw [buildNttFrom]
      have := invLt_buildNttFrom rest (triStep d c i) (i + 1)
        (fun c' hc' => hdist c' (List.mem_cons_of_mem _ hc'))
        (invLt_triStep d c i (hdist c (List.mem_cons_self _ _)) h)
      have harith : i + 1 + rest.length = i + (c :: rest).length := by
        simp; omega
      rwa [harith] at this

lemma invLt_buildNtt (conn : List (Nat × Nat × Nat))
    (hdist : ∀ c ∈ conn, c.1 ≠ c.2.1 ∧ c.1 ≠ c.2.2 ∧ c.2.1 ≠ c.2.2) :
    InvLt (buildNtt conn) conn.length := by
  have h0 : InvLt [] 0 := fun v l hl => by simp [lookupNtt] at hl
  simpa using invLt_buildNttFrom conn [] 0 hdist h0

/-! ### Generic lemmas about the projection algorithm -/

lemma mkMesh_verts (vs : List Vec3) (cs : List (Nat × Nat × Nat)) :
    (mkMesh vs cs).verts = vs := rfl

lemma mkMesh_connectivity (vs : List Vec3) (cs : List (Nat × Nat × Nat)) :
    (mkMesh vs cs).connectivity = cs := rfl

lemma mkMesh_node_to_tri (vs : List Vec3) (cs : List (Nat × Nat × Nat)) :
    (mkMesh vs cs).node_to_tri = buildNtt cs := rfl

lemma mkMesh_normals (vs : List Vec3) (cs : List (Nat × Nat × Nat)) :
    (mkMesh vs cs).normals = cs.map (fun c => unitize (rawNormal vs c)) := rfl

lemma getD_map_lt {α β : Type} (f : α → β) :
    ∀ (l : List α) (n : Nat), n < l.length → ∀ (d : α) (dfl : β),
      (l.map f).getD n dfl = f (l.getD n d)
  | [], n, h, _, _ => by simp at h
  | a :: l, 0, _, d, dfl => rfl
  | a :: l, n + 1, h, d, dfl => by
      simpa using getD_map_lt f l n (by simpa using h) d dfl

lemma mkMesh_normals_getD (vs : List Vec3) (cs : List (Nat × Nat × Nat))
    (t : Nat) (ht : t < cs.length) :
    (mkMesh vs cs).normals.getD t 0 =
      unitize (rawNormal vs (cs.getD t (0, 0, 0))) := by
  rw [mkMesh_normals]
  exact getD_map_lt _ cs t ht (0, 0, 0) 0

lemma rawNormal_as_edges (vs : List Vec3) (cs : List (Nat × Nat × Nat)) (t : Nat) :
    rawNormal vs (cs.getD t (0, 0, 0)) =
      cross (edgeU (mkMesh vs cs) t) (edgeV (mkMesh vs cs) t) := rfl

open scoped Classical in
lemma projectLoop_cons (m : Mesh) (pre : Vec3) (i : Nat) (rest : List Nat)
    (last : Vec3) :
    projectLoop m pre (i :: rest) last =
      if insideTest m (pre - cppVal m pre i • m.normals.getD i 0) i then
        (pre - cppVal m pre i • m.normals.getD i 0, (i : ℤ))
      else
        projectLoop m pre rest (pre - cppVal m pre i • m.normals.getD i 0) := rfl

lemma projectLoop_nil (m : Mesh) (pre : Vec3) (last : Vec3) :
    projectLoop m pre [] last = (last, -1) := rfl

/-- The loop returns the first accepted candidate in list order. -/
lemma projectLoop_first_accept (m : Mesh) (pre : Vec3) :
    ∀ (l1 : List Nat) (t : Nat) (l2 : List Nat) (init : Vec3),
      (∀ s ∈ l1, ¬ insideTest m (pre - cppVal m pre s • m.normals.getD s 0) s) →
      insideTest m (pre - cppVal m pre t • m.normals.getD t 0) t →
      projectLoop m pre (l1 ++ t :: l2) init =
        (pre - cppVal m pre t • m.normals.getD t 0, (t : ℤ))
  | [], t, l2, init, _, hacc => by
      rw [List.nil_append, projectLoop_cons, if_pos hacc]
  | s :: l1, t, l2, init, hrej, hacc => by
      rw [List.cons_append, projectLoop_cons,
        if_neg (hrej s (List.mem_cons_self _ _))]
      exact projectLoop_first_accept m pre l1 t l2 _
        (fun s' hs' => hrej s' (List.mem_cons_of_mem _ hs')) hacc

/-- When every candidate is rejected, the loop falls through returning the
projection computed by its final iteration and the sentinel `-1`. -/
lemma projectLoop_all_reject (m : Mesh) (pre : Vec3) :
    ∀ (l : List Nat) (init : Vec3) (h : l ≠ []),
      (∀ s ∈ l, ¬ insideTest m (pre - cppVal m pre s • m.normals.getD s 0) s) →
      projectLoop m pre l init =
        (pre - cppVal m pre (l.getLast h) • m.normals.getD (l.getLast h) 0, -1)
  | [], _, h, _ => absurd rfl h
  | [i], init, _, hrej => by
      rw [projectLoop_cons, if_neg (hrej i (List.mem_cons_self _ _)),
        projectLoop_nil]
      rfl
  | i :: j :: l, init, _, hrej => by
      rw [projectLoop_cons, if_neg (hrej i (List.mem_cons_self _ _))]
      rw [projectLoop_all_reject m pre (j :: l) _ (by simp)
        (fun s hs => hrej s (List.mem_cons_of_mem _ hs))]
      rfl

/-- In a list sorted by a key, the key of the last element bounds every
element's key. -/
lemma key_le_getLast_of_sorted {key : Nat → ℝ} :
    ∀ (l : List Nat) (h : l ≠ []),
      l.Sorted (fun a b => key a ≤ key b) →
      ∀ x ∈ l, key x ≤ key (l.getLast h)
  | [], h, _ => absurd rfl h
  | [i], _, _ => by
      intro x hx
      rw [List.mem_singleton] at hx
      subst hx
      rfl
  | i :: j :: l, _, hs => by
      intro x hx
      have hs' : (j :: l).Sorted (fun a b => key a ≤ key b) :=
        (List.sorted_cons.mp hs).2
      have hlast : (i :: j :: l).getLast (by simp) = (j :: l).getLast (by simp) := by
        simp [List.getLast]
      rcases List.mem_cons.mp hx with rfl | hx'
      · rw [hlast]
        have hj : key x ≤ key j := (List.sorted_cons.mp hs).1 j (by simp)
        exact le_trans hj
          (key_le_getLast_of_sorted (j :: l) (by simp) hs' j (by simp))
      · rw [hlast]
        exact key_le_getLast_of_sorted (j :: l) (by simp) hs' x hx'

open scoped Classical in
lemma sortedTris_perm (m : Mesh) (p : Vec3) :
    (sortedTris m p).Perm (candTris m p) :=
  List.perm_insertionSort _ _

open scoped Classical in
lemma sortedTris_sorted (m : Mesh) (p : Vec3) :
    (sortedTris m p).Sorted
      (fun a b => |cppVal m (preP m p) a| ≤ |cppVal m (preP m p) b|) := by
  haveI : IsTotal Nat
      (fun a b => |cppVal m (preP m p) a| ≤ |cppVal m (preP m p) b|) :=
    ⟨fun a b => le_total _ _⟩
  haveI : IsTrans Nat
      (fun a b => |cppVal m (preP m p) a| ≤ |cppVal m (preP m p) b|) :=
    ⟨fun _ _ _ hab hbc => le_trans hab hbc⟩
  exact List.sorted_insertionSort _ _

lemma project_fst_of_ne (m : Mesh) (p : Vec3) (h : candTris m p ≠ []) :
    (project_new_point m p).1 =
      Except.ok (projectLoop m (preP m p) (sortedTris m p) p) := by
  unfold project_new_point
  rw [if_neg h]

lemma project_fst_of_empty (m : Mesh) (p : Vec3) (h : candTris m p = []) :
    (project_new_point m p).1 = Except.error errMsg := by
  unfold project_new_point
  rw [if_pos h]

lemma project_snd (m : Mesh) (p : Vec3) :
    (project_new_point m p).2 =
      { m with node_to_tri := (dget m.node_to_tri (nearestIdx m.verts p)).2 } := by
  unfold project_new_point
  by_cases h : candTris m p = []
  · rw [if_pos h]
  · rw [if_neg h]

/-! ### Evaluation helpers for concrete meshes -/

lemma vnorm_eval (v : Vec3) (s : ℝ) (hs : 0 ≤ s) (h : dot v v = s ^ 2) :
    vnorm v = s := by
  rw [vnorm, h, Real.sqrt_sq hs]

lemma unitize_eval (v : Vec3) (s : ℝ) (hs : 0 < s) (h : dot v v = s ^ 2) :
    unitize v = s⁻¹ • v := by
  rw [unitize, vnorm_eval v s hs.le h]

lemma unitize_unit (v : Vec3) (h : dot v v = 1) : unitize v = v := by
  rw [unitize_eval v 1 one_pos (by rw [h]; norm_num)]
  ext <;> simp

lemma nearestIdx4_zero (a b c d p : Vec3)
    (h1 : ¬ dot (b - p) (b - p) < dot (a - p) (a - p))
    (h2 : ¬ dot (c - p) (c - p) < dot (a - p) (a - p))
    (h3 : ¬ dot (d - p) (d - p) < dot (a - p) (a - p)) :
    nearestIdx [a, b, c, d] p = 0 := by
  rw [nearestIdx]
  simp only [show ([a, b, c, d] : List Vec3).length = 4 from rfl,
    show List.range 4 = [0, 1, 2, 3] from rfl, List.foldl_cons, List.foldl_nil]
  simp only [show ([a, b, c, d] : List Vec3).getD 0 0 = a from rfl,
    show ([a, b, c, d] : List Vec3).getD 1 0 = b from rfl,
    show ([a, b, c, d] : List Vec3).getD 2 0 = c from rfl,
    show ([a, b, c, d] : List Vec3).getD 3 0 = d from rfl]
  rw [if_neg (lt_irrefl _)]
  simp only [show ([a, b, c, d] : List Vec3).getD 0 0 = a from rfl]
  rw [if_neg h1]
  simp only [show ([a, b, c, d] : List Vec3).getD 0 0 = a from rfl]
  rw [if_neg h2]
  simp only [show ([a, b, c, d] : List Vec3).getD 0 0 = a from rfl]
  rw [if_neg h3]

lemma nearestIdx5_zero (a b c d e p : Vec3)
    (h1 : ¬ dot (b - p) (b - p) < dot (a - p) (a - p))
    (h2 : ¬ dot (c - p) (c - p) < dot (a - p) (a - p))
    (h3 : ¬ dot (d - p) (d - p) < dot (a - p) (a - p))
    (h4 : ¬ dot (e - p) (e - p) < dot (a - p) (a - p)) :
    nearestIdx [a, b, c, d, e] p = 0 := by
  rw [nearestIdx]
  simp only [show ([a, b, c, d, e] : List Vec3).length = 5 from rfl,
    show List.range 5 = [0, 1, 2, 3, 4] from rfl, List.foldl_cons, List.foldl_nil]
  simp only [show ([a, b, c, d, e] : List Vec3).getD 0 0 = a from rfl,
    show ([a, b, c, d, e] : List Vec3).getD 1 0 = b from rfl,
    show ([a, b, c, d, e] : List Vec3).getD 2 0 = c from rfl,
    show ([a, b, c, d, e] : List Vec3).getD 3 0 = d from rfl,
    show ([a, b, c, d, e] : List Vec3).getD 4 0 = e from rfl]
  rw [if_neg (lt_irrefl _)]
  simp only [show ([a, b, c, d, e] : List Vec3).getD 0 0 = a from rfl]
  rw [if_neg h1]
  simp only [show ([a, b, c, d, e] : List Vec3).getD 0 0 = a from rfl]
  rw [if_neg h2]
  simp only [show ([a, b, c, d, e] : List Vec3).getD 0 0 = a from rfl]
  rw [if_neg h3]
  simp only [show ([a, b, c, d, e] : List Vec3).getD 0 0 = a from rfl]
  rw [if_neg h4]

/-! ### Evaluation of the quad mesh -/

lemma quad_ntt : quadMesh.node_to_tri =
    [(0, [0, 1]), (1, [0]), (2, [0, 1]), (3, [1])] := rfl

lemma quad_raw0 : rawNormal quadVerts (0, 1, 2) = ⟨0, 0, 1⟩ := by
  show cross ((⟨1, 0, 0⟩ : Vec3) - ⟨0, 0, 0⟩) ((⟨1, 1, 0⟩ : Vec3) - ⟨0, 0, 0⟩) = _
  ext <;> norm_num [cross]

lemma quad_raw1 : rawNormal quadVerts (0, 2, 3) = ⟨0, 0, 1⟩ := by
  show cross ((⟨1, 1, 0⟩ : Vec3) - ⟨0, 0, 0⟩) ((⟨0, 1, 0⟩ : Vec3) - ⟨0, 0, 0⟩) = _
  ext <;> norm_num [cross]

lemma quad_normals : quadMesh.normals = [⟨0, 0, 1⟩, ⟨0, 0, 1⟩] := by
  show [unitize (rawNormal quadVerts (0, 1, 2)),
        unitize (rawNormal quadVerts (0, 2, 3))] = _
  rw [quad_raw0, quad_raw1, unitize_unit _ (by norm_num [dot])]

lemma quad_normals_getD0 : quadMesh.normals.getD 0 0 = ⟨0, 0, 1⟩ := by
  rw [quad_normals]; rfl

lemma quad_normals_getD1 : quadMesh.normals.getD 1 0 = ⟨0, 0, 1⟩ := by
  rw [quad_normals]; rfl

lemma quad_nearest_A : nearestIdx quadVerts qA = 0 := by
  show nearestIdx [⟨0, 0, 0⟩, ⟨1, 0, 0⟩, ⟨1, 1, 0⟩, ⟨0, 1, 0⟩] qA = 0
  apply nearestIdx4_zero <;> norm_num [dot, qA]

lemma quad_nearest_B : nearestIdx quadVerts qB = 0 := by
  show nearestIdx [⟨0, 0, 0⟩, ⟨1, 0, 0⟩, ⟨1, 1, 0⟩, ⟨0, 1, 0⟩] qB = 0
  apply nearestIdx4_zero <;> norm_num [dot, qB]

lemma quad_cands_A : candTris quadMesh qA = [0, 1] := by
  unfold candTris
  rw [show quadMesh.verts = quadVerts from rfl, quad_nearest_A]
  rfl

lemma quad_cands_B : candTris quadMesh qB = [0, 1] := by
  unfold candTris
  rw [show quadMesh.verts = quadVerts from rfl, quad_nearest_B]
  rfl

lemma quad_sumN : sumNormals quadMesh [0, 1] = ⟨0, 0, 2⟩ := by
  show quadMesh.normals.getD 0 0 + (quadMesh.normals.getD 1 0 + 0) = _
  rw [quad_normals_getD0, quad_normals_getD1]
  ext <;> norm_num

lemma quad_vn (p : Vec3) (hc : candTris quadMesh p = [0, 1]) :
    vertexNormal quadMesh p = ⟨0, 0, 1⟩ := by
  unfold vertexNormal
  rw [hc, quad_sumN, unitize_eval _ 2 (by norm_num) (by norm_num [dot])]
  ext <;> norm_num

lemma quad_pre_A : preP quadMesh qA = ⟨1/2, 1/2, 0⟩ := by
  unfold preP
  rw [quad_vn qA quad_cands_A, show quadMesh.verts = quadVerts from rfl,
    quad_nearest_A, show quadVerts.getD 0 0 = (⟨0, 0, 0⟩ : Vec3) from rfl]
  ext <;> norm_num [dot, qA]

lemma quad_pre_B : preP quadMesh qB = ⟨1/5, 1/5, 0⟩ := by
  unfold preP
  rw [quad_vn qB quad_cands_B, show quadMesh.verts = quadVerts from rfl,
    quad_nearest_B, show quadVerts.getD 0 0 = (⟨0, 0, 0⟩ : Vec3) from rfl]
  ext <;> norm_num [dot, qB]

lemma quad_cpp0 (pre : Vec3) : cppVal quadMesh pre 0 = pre.z := by
  unfold cppVal
  rw [quad_normals_getD0,
    show quadMesh.verts.getD (quadMesh.connectivity.getD 0 (0, 0, 0)).1 0 =
      (⟨0, 0, 0⟩ : Vec3) from rfl]
  norm_num [dot]

lemma quad_cpp1 (pre : Vec3) : cppVal quadMesh pre 1 = pre.z := by
  unfold cppVal
  rw [quad_normals_getD1,
    show quadMesh.verts.getD (quadMesh.connectivity.getD 1 (0, 0, 0)).1 0 =
      (⟨0, 0, 0⟩ : Vec3) from rfl]
  norm_num [dot]

open scoped Classical in
lemma quad_sorted (p : Vec3) (hc : candTris quadMesh p = [0, 1]) :
    sortedTris quadMesh p = [0, 1] := by
  unfold sortedTris
  rw [hc]
  simp only [List.insertionSort, List.orderedInsert]
  rw [if_pos (by rw [quad_cpp0, quad_cpp1])]

lemma quad_inside_A0 : insideTest quadMesh ⟨1/2, 1/2, 0⟩ 0 := by
  unfold insideTest
  rw [show edgeU quadMesh 0 = (⟨1, 0, 0⟩ : Vec3) - ⟨0, 0, 0⟩ from rfl,
    show edgeV quadMesh 0 = (⟨1, 1, 0⟩ : Vec3) - ⟨0, 0, 0⟩ from rfl,
    show triA quadMesh 0 = (⟨0, 0, 0⟩ : Vec3) from rfl,
    show ((⟨1, 0, 0⟩ : Vec3) - ⟨0, 0, 0⟩) = (⟨1, 0, 0⟩ : Vec3) by ext <;> norm_num,
    show ((⟨1, 1, 0⟩ : Vec3) - ⟨0, 0, 0⟩) = (⟨1, 1, 0⟩ : Vec3) by ext <;> norm_num,
    show ((⟨1/2, 1/2, 0⟩ : Vec3) - ⟨0, 0, 0⟩) = (⟨1/2, 1/2, 0⟩ : Vec3) by ext <;> norm_num,
    show cross (⟨1, 1, 0⟩ : Vec3) ⟨1/2, 1/2, 0⟩ = (⟨0, 0, 0⟩ : Vec3) by
      ext <;> norm_num [cross],
    show cross (⟨1, 1, 0⟩ : Vec3) ⟨1, 0, 0⟩ = (⟨0, 0, -1⟩ : Vec3) by
      ext <;> norm_num [cross],
    show cross (⟨1, 0, 0⟩ : Vec3) ⟨1/2, 1/2, 0⟩ = (⟨0, 0, 1/2⟩ : Vec3) by
      ext <;> norm_num [cross],
    show vnorm ⟨0, 0, 0⟩ = 0 by
      rw [show (⟨0, 0, 0⟩ : Vec3) = 0 from rfl, vnorm_zero],
    vnorm_eval ⟨0, 0, -1⟩ 1 (by norm_num) (by norm_num [dot]),
    vnorm_eval ⟨0, 0, 1/2⟩ (1/2) (by norm_num) (by norm_num [dot])]
  norm_num [dot]

lemma quad_inside_B0 : insideTest quadMesh ⟨1/5, 1/5, 0⟩ 0 := by
  unfold insideTest
  rw [show edgeU quadMesh 0 = (⟨1, 0, 0⟩ : Vec3) - ⟨0, 0, 0⟩ from rfl,
    show edgeV quadMesh 0 = (⟨1, 1, 0⟩ : Vec3) - ⟨0, 0, 0⟩ from rfl,
    show triA quadMesh 0 = (⟨0, 0, 0⟩ : Vec3) from rfl,
    show ((⟨1, 0, 0⟩ : Vec3) - ⟨0, 0, 0⟩) = (⟨1, 0, 0⟩ : Vec3) by ext <;> norm_num,
    show ((⟨1, 1, 0⟩ : Vec3) - ⟨0, 0, 0⟩) = (⟨1, 1, 0⟩ : Vec3) by ext <;> norm_num,
    show ((⟨1/5, 1/5, 0⟩ : Vec3) - ⟨0, 0, 0⟩) = (⟨1/5, 1/5, 0⟩ : Vec3) by
      ext <;> norm_num,
    show cross (⟨1, 1, 0⟩ : Vec3) ⟨1/5, 1/5, 0⟩ = (⟨0, 0, 0⟩ : Vec3) by
      ext <;> norm_num [cross],
    show cross (⟨1, 1, 0⟩ : Vec3) ⟨1, 0, 0⟩ = (⟨0, 0, -1⟩ : Vec3) by
      ext <;> norm_num [cross],
    show cross (⟨1, 0, 0⟩ : Vec3) ⟨1/5, 1/5, 0⟩ = (⟨0, 0, 1/5⟩ : Vec3) by
      ext <;> norm_num [cross],
    show vnorm ⟨0, 0, 0⟩ = 0 by
      rw [show (⟨0, 0, 0⟩ : Vec3) = 0 from rfl, vnorm_zero],
    vnorm_eval ⟨0, 0, -1⟩ 1 (by norm_num) (by norm_num [dot]),
    vnorm_eval ⟨0, 0, 1/5⟩ (1/5) (by norm_num) (by norm_num [dot])]
  norm_num [dot]

lemma quad_result_A :
    (project_new_point quadMesh qA).1 = Except.ok (⟨1/2, 1/2, 0⟩, 0) := by
  rw [project_fst_of_ne _ _ (by rw [quad_cands_A]; simp)]
  rw [quad_sorted qA quad_cands_A]
  have hpp0 : preP quadMesh qA -
      cppVal quadMesh (preP quadMesh qA) 0 • quadMesh.normals.getD 0 0 =
      ⟨1/2, 1/2, 0⟩ := by
    rw [quad_cpp0, quad_pre_A]
    ext <;> norm_num
  rw [projectLoop_cons, hpp0, if_pos quad_inside_A0]
  rfl

lemma quad_result_B :
    (project_new_point quadMesh qB).1 = Except.ok (⟨1/5, 1/5, 0⟩, 0) := by
  rw [project_fst_of_ne _ _ (by rw [quad_cands_B]; simp)]
  rw [quad_sorted qB quad_cands_B]
  have hpp0 : preP quadMesh qB -
      cppVal quadMesh (preP quadMesh qB) 0 • quadMesh.normals.getD 0 0 =
      ⟨1/5, 1/5, 0⟩ := by
    rw [quad_cpp0, quad_pre_B]
    ext <;> norm_num
  rw [projectLoop_cons, hpp0, if_pos quad_inside_B0]
  rfl

/-! ### Evaluation of the fan mesh -/

lemma fan_raw0 : rawNormal fanVerts (0, 1, 2) = ⟨0, 0, 1⟩ := by
  show cross ((⟨0, -1, 0⟩ : Vec3) - ⟨0, 0, 0⟩) ((⟨1, -1, 0⟩ : Vec3) - ⟨0, 0, 0⟩) = _
  ext <;> norm_num [cross]

lemma fan_raw1 : rawNormal fanVerts (0, 1, 3) = ⟨4, 0, 3⟩ := by
  show cross ((⟨0, -1, 0⟩ : Vec3) - ⟨0, 0, 0⟩) ((⟨3, -1, -4⟩ : Vec3) - ⟨0, 0, 0⟩) = _
  ext <;> norm_num [cross]

lemma fan_raw2 : rawNormal fanVerts (0, 1, 4) = ⟨-4, 0, 3⟩ := by
  show cross ((⟨0, -1, 0⟩ : Vec3) - ⟨0, 0, 0⟩) ((⟨3, -1, 4⟩ : Vec3) - ⟨0, 0, 0⟩) = _
  ext <;> norm_num [cross]

lemma fan_n0 : fanMesh.normals.getD 0 0 = ⟨0, 0, 1⟩ := by
  show unitize (rawNormal fanVerts (0, 1, 2)) = _
  rw [fan_raw0, unitize_unit _ (by norm_num [dot])]

lemma fan_n1 : fanMesh.normals.getD 1 0 = ⟨4/5, 0, 3/5⟩ := by
  show unitize (rawNormal fanVerts (0, 1, 3)) = _
  rw [fan_raw1, unitize_eval _ 5 (by norm_num) (by norm_num [dot])]
  ext <;> norm_num

lemma fan_n2 : fanMesh.normals.getD 2 0 = ⟨-4/5, 0, 3/5⟩ := by
  show unitize (rawNormal fanVerts (0, 1, 4)) = _
  rw [fan_raw2, unitize_eval _ 5 (by norm_num) (by norm_num [dot])]
  ext <;> norm_num

lemma fan_nearest : nearestIdx fanVerts qF = 0 := by
  show nearestIdx [⟨0, 0, 0⟩, ⟨0, -1, 0⟩, ⟨1, -1, 0⟩, ⟨3, -1, -4⟩, ⟨3, -1, 4⟩] qF = 0
  apply nearestIdx5_zero <;> norm_num [dot, qF]

lemma fan_cands : candTris fanMesh qF = [0, 1, 2] := by
  unfold candTris
  rw [show fanMesh.verts = fanVerts from rfl, fan_nearest]
  rfl

lemma fan_sumN : sumNormals fanMesh [0, 1, 2] = ⟨0, 0, 11/5⟩ := by
  show fanMesh.normals.getD 0 0 +
    (fanMesh.normals.getD 1 0 + (fanMesh.normals.getD 2 0 + 0)) = _
  rw [fan_n0, fan_n1, fan_n2]
  ext <;> norm_num

lemma fan_vn : vertexNormal fanMesh qF = ⟨0, 0, 1⟩ := by
  unfold vertexNormal
  rw [fan_cands, fan_sumN, unitize_eval _ (11/5) (by norm_num) (by norm_num [dot])]
  ext <;> norm_num

lemma fan_pre : preP fanMesh qF = ⟨1, 5, 0⟩ := by
  unfold preP
  rw [fan_vn, show fanMesh.verts = fanVerts from rfl, fan_nearest,
    show fanVerts.getD 0 0 = (⟨0, 0, 0⟩ : Vec3) from rfl]
  ext <;> norm_num [dot, qF]

lemma fan_cpp0 : cppVal fanMesh (preP fanMesh qF) 0 = 0 := by
  rw [fan_pre]
  unfold cppVal
  rw [fan_n0, show fanMesh.verts.getD (fanMesh.connectivity.getD 0 (0, 0, 0)).1 0 =
    (⟨0, 0, 0⟩ : Vec3) from rfl]
  norm_num [dot]

lemma fan_cpp1 : cppVal fanMesh (preP fanMesh qF) 1 = 4/5 := by
  rw [fan_pre]
  unfold cppVal
  rw [fan_n1, show fanMesh.verts.getD (fanMesh.connectivity.getD 1 (0, 0, 0)).1 0 =
    (⟨0, 0, 0⟩ : Vec3) from rfl]
  norm_num [dot]

lemma fan_cpp2 : cppVal fanMesh (preP fanMesh qF) 2 = -(4/5) := by
  rw [fan_pre]
  unfold cppVal
  rw [fan_n2, show fanMesh.verts.getD (fanMesh.connectivity.getD 2 (0, 0, 0)).1 0 =
    (⟨0, 0, 0⟩ : Vec3) from rfl]
  norm_num [dot]

open scoped Classical in
lemma fan_sorted : sortedTris fanMesh qF = [0, 1, 2] := by
  unfold sortedTris
  rw [fan_cands]
  simp only [List.insertionSort, List.orderedInsert]
  rw [if_pos (by rw [fan_cpp1, fan_cpp2]; norm_num)]
  simp only [List.orderedInsert]
  rw [if_pos (by rw [fan_cpp0, fan_cpp1]; norm_num)]

lemma fan_pp0 : projPt fanMesh qF 0 = ⟨1, 5, 0⟩ := by
  unfold projPt
  rw [fan_cpp0, fan_pre, fan_n0]
  ext <;> norm_num

lemma fan_pp1 : projPt fanMesh qF 1 = ⟨9/25, 5, -(12/25)⟩ := by
  unfold projPt
  rw [fan_cpp1, fan_pre, fan_n1]
  ext <;> norm_num

lemma fan_pp2 : projPt fanMesh qF 2 = ⟨9/25, 5, 12/25⟩ := by
  unfold projPt
  rw [fan_cpp2, fan_pre, fan_n2]
  ext <;> norm_num

lemma fan_rej0 : ¬ insideTest fanMesh ⟨1, 5, 0⟩ 0 := by
  intro h
  have h1 := h.1
  rw [show edgeV fanMesh 0 = (⟨1, -1, 0⟩ : Vec3) - ⟨0, 0, 0⟩ from rfl,
    show edgeU fanMesh 0 = (⟨0, -1, 0⟩ : Vec3) - ⟨0, 0, 0⟩ from rfl,
    show triA fanMesh 0 = (⟨0, 0, 0⟩ : Vec3) from rfl] at h1
  norm_num [cross, dot] at h1

lemma fan_rej1 : ¬ insideTest fanMesh ⟨9/25, 5, -(12/25)⟩ 1 := by
  intro h
  have h1 := h.1
  rw [show edgeV fanMesh 1 = (⟨3, -1, -4⟩ : Vec3) - ⟨0, 0, 0⟩ from rfl,
    show edgeU fanMesh 1 = (⟨0, -1, 0⟩ : Vec3) - ⟨0, 0, 0⟩ from rfl,
    show triA fanMesh 1 = (⟨0, 0, 0⟩ : Vec3) from rfl] at h1
  norm_num [cross, dot] at h1

lemma fan_rej2 : ¬ insideTest fanMesh ⟨9/25, 5, 12/25⟩ 2 := by
  intro h
  have h1 := h.1
  rw [show edgeV fanMesh 2 = (⟨3, -1, 4⟩ : Vec3) - ⟨0, 0, 0⟩ from rfl,
    show edgeU fanMesh 2 = (⟨0, -1, 0⟩ : Vec3) - ⟨0, 0, 0⟩ from rfl,
    show triA fanMesh 2 = (⟨0, 0, 0⟩ : Vec3) from rfl] at h1
  norm_num [cross, dot] at h1

lemma fan_result :
    (project_new_point fanMesh qF).1 = Except.ok (⟨9/25, 5, 12/25⟩, -1) := by
  rw [project_fst_of_ne _ _ (by rw [fan_cands]; simp)]
  rw [fan_sorted]
  have hpp0 : preP fanMesh qF -
      cppVal fanMesh (preP fanMesh qF) 0 • fanMesh.normals.getD 0 0 =
      ⟨1, 5, 0⟩ := fan_pp0
  have hpp1 : preP fanMesh qF -
      cppVal fanMesh (preP fanMesh qF) 1 • fanMesh.normals.getD 1 0 =
      ⟨9/25, 5, -(12/25)⟩ := fan_pp1
  have hpp2 : preP fanMesh qF -
      cppVal fanMesh (preP fanMesh qF) 2 • fanMesh.normals.getD 2 0 =
      ⟨9/25, 5, 12/25⟩ := fan_pp2
  rw [projectLoop_cons, hpp0, if_neg fan_rej0,
    projectLoop_cons, hpp1, if_neg fan_rej1,
    projectLoop_cons, hpp2, if_neg fan_rej2,
    projectLoop_nil]

/-! ### Further helper lemmas -/

lemma unitize_zero : unitize 0 = 0 := by
  rw [unitize, vnorm_zero]
  ext <;> simp

lemma vec_ne_zero_of_z (a : Vec3) (h : a.z ≠ 0) : a ≠ 0 :=
  fun he => h (by rw [he]; simp)

open scoped Classical in
lemma nearestIdx_lt (verts : List Vec3) (p : Vec3) (h : verts ≠ []) :
    nearestIdx verts p < verts.length := by
  have hn : 0 < verts.length := List.length_pos.mpr h
  rw [nearestIdx]
  have hgen : ∀ (l : List Nat) (b : Nat), (∀ i ∈ l, i < verts.length) →
      b < verts.length →
      l.foldl (fun best i =>
        if dot (verts.getD i 0 - p) (verts.getD i 0 - p) <
            dot (verts.getD best 0 - p) (verts.getD best 0 - p) then i
        else best) b < verts.length := by
    intro l
    induction l with
    | nil => intro b _ hb; simpa using hb
    | cons i l ih =>
        intro b hl hb
        rw [List.foldl_cons]
        apply ih _ (fun j hj => hl j (List.mem_cons_of_mem _ hj))
        split_ifs
        · exact hl i (List.mem_cons_self _ _)
        · exact hb
  exact hgen (List.range verts.length) 0 (fun i hi => List.mem_range.mp hi) hn

/-! ### Evaluation of the quad mesh at the vertex-0 position -/

lemma quad_nearest_O : nearestIdx quadVerts ⟨0, 0, 0⟩ = 0 := by
  show nearestIdx [⟨0, 0, 0⟩, ⟨1, 0, 0⟩, ⟨1, 1, 0⟩, ⟨0, 1, 0⟩] ⟨0, 0, 0⟩ = 0
  apply nearestIdx4_zero <;> norm_num [dot]

lemma quad_cands_O : candTris quadMesh ⟨0, 0, 0⟩ = [0, 1] := by
  unfold candTris
  rw [show quadMesh.verts = quadVerts from rfl, quad_nearest_O]
  rfl

/-! ### Evaluation of the isolated-vertex mesh -/

lemma iso_ntt : isoMesh.node_to_tri = [(1, [0]), (2, [0]), (3, [0])] := rfl

lemma iso_nearest : nearestIdx isoVerts qI = 0 := by
  show nearestIdx [⟨10, 0, 0⟩, ⟨0, 0, 0⟩, ⟨1, 0, 0⟩, ⟨0, 1, 0⟩] qI = 0
  apply nearestIdx4_zero <;> norm_num [dot, qI]

lemma iso_cands : candTris isoMesh qI = [] := by
  unfold candTris
  rw [show isoMesh.verts = isoVerts from rfl, iso_nearest]
  rfl

lemma iso_after : (project_new_point isoMesh qI).2.node_to_tri =
    [(1, [0]), (2, [0]), (3, [0]), (0, [])] := by
  rw [project_snd]
  show (dget isoMesh.node_to_tri (nearestIdx isoMesh.verts qI)).2 = _
  rw [show isoMesh.verts = isoVerts from rfl, iso_nearest]
  rfl

/-! ### Evaluation of the degenerate mesh -/

lemma deg_raw : rawNormal degVerts (0, 1, 2) = 0 := by
  show cross ((⟨1, 0, 0⟩ : Vec3) - ⟨0, 0, 0⟩) ((⟨2, 0, 0⟩ : Vec3) - ⟨0, 0, 0⟩) = 0
  ext <;> norm_num [cross]

lemma deg_n0 : degMesh.normals.getD 0 0 = 0 := by
  show unitize (rawNormal degVerts (0, 1, 2)) = 0
  rw [deg_raw, unitize_zero]

/-! ### Vertex self-projection: generic algebraic lemmas -/

lemma cand_props (vs : List Vec3) (cs : List (Nat × Nat × Nat)) (v : Nat)
    (hnear : nearestIdx vs (vs.getD v 0) = v) :
    candTris (mkMesh vs cs) (vs.getD v 0) =
      (lookupNtt (buildNtt cs) v).getD [] := by
  unfold candTris
  rw [mkMesh_verts, hnear, dget_fst, mkMesh_node_to_tri]

lemma self_pre (vs : List Vec3) (cs : List (Nat × Nat × Nat)) (v : Nat)
    (hnear : nearestIdx vs (vs.getD v 0) = v) :
    preP (mkMesh vs cs) (vs.getD v 0) = vs.getD v 0 := by
  unfold preP
  rw [mkMesh_verts, hnear, vec_sub_self, dot_zero_left, zero_smul_vec,
    vec_sub_zero]

lemma self_cpp (vs : List Vec3) (cs : List (Nat × Nat × Nat)) (v t : Nat)
    (hnear : nearestIdx vs (vs.getD v 0) = v)
    (htl : t < cs.length) (hv : v ∈ triIdx (cs.getD t (0, 0, 0))) :
    cppVal (mkMesh vs cs) (preP (mkMesh vs cs) (vs.getD v 0)) t = 0 := by
  rw [self_pre vs cs v hnear]
  unfold cppVal
  rw [mkMesh_connectivity, mkMesh_verts, mkMesh_normals_getD vs cs t htl]
  rw [show unitize (rawNormal vs (cs.getD t (0, 0, 0))) =
      (vnorm (rawNormal vs (cs.getD t (0, 0, 0))))⁻¹ •
        rawNormal vs (cs.getD t (0, 0, 0)) from rfl]
  rw [dot_smul_right]
  have hz : dot (vs.getD v 0 - vs.getD (cs.getD t (0, 0, 0)).1 0)
      (rawNormal vs (cs.getD t (0, 0, 0))) = 0 := by
    rcases (by simpa [triIdx] using hv : v = (cs.getD t (0, 0, 0)).1 ∨
        v = (cs.getD t (0, 0, 0)).2.1 ∨ v = (cs.getD t (0, 0, 0)).2.2) with
      h1 | h2 | h3
    · rw [h1, vec_sub_self, dot_zero_left]
    · rw [h2]
      exact dot_cross_left _ _
    · rw [h3]
      exact dot_cross_right _ _
  rw [hz, mul_zero]

lemma self_accept (vs : List Vec3) (cs : List (Nat × Nat × Nat)) (v t : Nat)
    (htl : t < cs.length) (hv : v ∈ triIdx (cs.getD t (0, 0, 0)))
    (hnd : rawNormal vs (cs.getD t (0, 0, 0)) ≠ 0) :
    insideTest (mkMesh vs cs) (vs.getD v 0) t := by
  have hnz : vnorm (cross (edgeV (mkMesh vs cs) t) (edgeU (mkMesh vs cs) t)) ≠ 0 := by
    have h1 : cross (edgeV (mkMesh vs cs) t) (edgeU (mkMesh vs cs) t) =
        -(rawNormal vs (cs.getD t (0, 0, 0))) := by
      rw [rawNormal_as_edges vs cs t]
      exact cross_anticomm _ _
    rw [h1, vnorm_neg]
    intro h0
    exact hnd ((vnorm_eq_zero_iff _).mp h0)
  have hvv : vnorm (cross (edgeU (mkMesh vs cs) t) (edgeV (mkMesh vs cs) t)) =
      vnorm (cross (edgeV (mkMesh vs cs) t) (edgeU (mkMesh vs cs) t)) := by
    rw [cross_anticomm (edgeU (mkMesh vs cs) t) (edgeV (mkMesh vs cs) t), vnorm_neg]
  have hneg : -(cross (edgeV (mkMesh vs cs) t) (edgeU (mkMesh vs cs) t)) =
      cross (edgeU (mkMesh vs cs) t) (edgeV (mkMesh vs cs) t) := by
    rw [cross_anticomm (edgeV (mkMesh vs cs) t) (edgeU (mkMesh vs cs) t)]
    ext <;> simp
  have hw : vs.getD v 0 - triA (mkMesh vs cs) t = 0 ∨
      vs.getD v 0 - triA (mkMesh vs cs) t = edgeU (mkMesh vs cs) t ∨
      vs.getD v 0 - triA (mkMesh vs cs) t = edgeV (mkMesh vs cs) t := by
    rcases (by simpa [triIdx] using hv : v = (cs.getD t (0, 0, 0)).1 ∨
        v = (cs.getD t (0, 0, 0)).2.1 ∨ v = (cs.getD t (0, 0, 0)).2.2) with
      h1 | h2 | h3
    · left
      rw [show triA (mkMesh vs cs) t = vs.getD (cs.getD t (0, 0, 0)).1 0 from rfl,
        h1, vec_sub_self]
    · right; left
      rw [show triA (mkMesh vs cs) t = vs.getD (cs.getD t (0, 0, 0)).1 0 from rfl,
        show edgeU (mkMesh vs cs) t = vs.getD (cs.getD t (0, 0, 0)).2.1 0 -
          vs.getD (cs.getD t (0, 0, 0)).1 0 from rfl, h2]
    · right; right
      rw [show triA (mkMesh vs cs) t = vs.getD (cs.getD t (0, 0, 0)).1 0 from rfl,
        show edgeV (mkMesh vs cs) t = vs.getD (cs.getD t (0, 0, 0)).2.2 0 -
          vs.getD (cs.getD t (0, 0, 0)).1 0 from rfl, h3]
  unfold insideTest
  rcases hw with h | h | h
  · rw [h, cross_zero_right, cross_zero_right, vnorm_zero, zero_div]
    refine ⟨by simp, by simp, by norm_num, by norm_num, by norm_num⟩
  · rw [h, cross_self, vnorm_zero, zero_div]
    refine ⟨dot_self_nonneg _, by simp, by rw [div_self hnz], by norm_num, ?_⟩
    rw [div_self hnz]
    norm_num
  · rw [h, cross_self, vnorm_zero, zero_div, hneg, hvv, div_self hnz]
    refine ⟨by simp, dot_self_nonneg _, by norm_num, by norm_num, by norm_num⟩

/-! ### Claim theorems -/

open scoped Classical in
/-- C1 (amended): when no candidate triangle passes the inside-triangle
test, `project_new_point` returns `triangle_index = -1` together with the
plane projection of the candidate tried last, i.e. the candidate whose
plane is numerically FURTHEST from the pre-projected point (its `|d_t|`
bounds every candidate's `|d_t|` from above). -/
theorem c1_fallback_returns_last (m : Mesh) (p : Vec3)
    (h1 : sortedTris m p ≠ [])
    (h2 : ∀ s ∈ sortedTris m p, ¬ insideTest m (projPt m p s) s) :
    (project_new_point m p).1 =
      Except.ok (projPt m p ((sortedTris m p).getLast h1), -1) ∧
    ∀ s ∈ sortedTris m p,
      |cppVal m (preP m p) s| ≤
        |cppVal m (preP m p) ((sortedTris m p).getLast h1)| := by
  have hc : candTris m p ≠ [] := by
    intro hc0
    apply h1
    have hperm := sortedTris_perm m p
    rw [hc0] at hperm
    exact hperm.eq_nil
  constructor
  · rw [project_fst_of_ne m p hc,
      projectLoop_all_reject m (preP m p) (sortedTris m p) p h1 h2]
    rfl
  · intro s hs
    exact @key_le_getLast_of_sorted (fun a => |cppVal m (preP m p) a|)
      (sortedTris m p) h1 (sortedTris_sorted m p) s hs

/-- C1 witness: the fan mesh with query `(1, 5, 3)` rejects all three
candidates, so the amended fallback theorem applies. -/
theorem c1_fallback_returns_last_witness :
    ∃ h1 : sortedTris fanMesh qF ≠ [],
      (project_new_point fanMesh qF).1 =
        Except.ok (projPt fanMesh qF ((sortedTris fanMesh qF).getLast h1), -1) := by
  have h1 : sortedTris fanMesh qF ≠ [] := by rw [fan_sorted]; simp
  have h2 : ∀ s ∈ sortedTris fanMesh qF,
      ¬ insideTest fanMesh (projPt fanMesh qF s) s := by
    intro s hs
    rw [fan_sorted] at hs
    rcases (by simpa using hs : s = 0 ∨ s = 1 ∨ s = 2) with rfl | rfl | rfl
    · rw [fan_pp0]; exact fan_rej0
    · rw [fan_pp1]; exact fan_rej1
    · rw [fan_pp2]; exact fan_rej2
  exact ⟨h1, (c1_fallback_returns_last fanMesh qF h1 h2).1⟩

/-- C1 counterexample: on the fan mesh with query `(1, 5, 3)` no candidate
is accepted, candidate 0 has strictly minimal `|d_t|` (0 versus 4/5), yet
the returned point `(9/25, 5, 12/25)` is NOT candidate 0's plane
projection `(1, 5, 0)` — refuting the claim that the returned `proj_t`
comes from the candidate whose plane is closest to the pre-projected
point. -/
theorem c1_counterexample :
    (project_new_point fanMesh qF).1 = Except.ok (⟨9/25, 5, 12/25⟩, -1) ∧
    |cppVal fanMesh (preP fanMesh qF) 0| < |cppVal fanMesh (preP fanMesh qF) 1| ∧
    |cppVal fanMesh (preP fanMesh qF) 0| < |cppVal fanMesh (preP fanMesh qF) 2| ∧
    (⟨9/25, 5, 12/25⟩ : Vec3) ≠ projPt fanMesh qF 0 := by
  refine ⟨fan_result, ?_, ?_, ?_⟩
  · rw [fan_cpp0, fan_cpp1]; norm_num
  · rw [fan_cpp0, fan_cpp2]; norm_num
  · rw [fan_pp0]
    intro h
    have hx := congrArg Vec3.x h
    norm_num at hx

/-- C2: mesh construction performs NO degeneracy check.  On the collinear
triangle `(0,0,0), (1,0,0), (2,0,0)` the raw cross-product normal is the
zero vector, yet `mkMesh` succeeds, silently divides by the zero norm, and
stores an invalid (zero, hence non-unit) normal in the resulting mesh —
the failure the claim requires (an explicit DegenerateGeometry
construction error) never happens. -/
theorem c2_degenerate_silently_accepted :
    rawNormal degVerts (degConn.getD 0 (0, 0, 0)) = 0 ∧
    degMesh.verts = degVerts ∧ degMesh.connectivity = degConn ∧
    degMesh.normals.getD 0 0 = 0 ∧
    vnorm (degMesh.normals.getD 0 0) ≠ 1 := by
  refine ⟨?_, rfl, rfl, deg_n0, ?_⟩
  · show rawNormal degVerts (0, 1, 2) = 0
    exact deg_raw
  · rw [deg_n0, vnorm_zero]
    norm_num

/-- C3 (amended): `project_new_point` never changes `verts`,
`connectivity` or `normals`; when the nearest vertex is a key of
`node_to_tri` the whole mesh is unchanged, but when the key is missing
(the UnconnectedVertex path) the `defaultdict` read inserts the entry
`(node, [])`, so `node_to_tri` gains a key. -/
theorem c3_project_frame (m : Mesh) (p : Vec3) :
    (project_new_point m p).2.verts = m.verts ∧
    (project_new_point m p).2.connectivity = m.connectivity ∧
    (project_new_point m p).2.normals = m.normals ∧
    (∀ l, lookupNtt m.node_to_tri (nearestIdx m.verts p) = some l →
      (project_new_point m p).2 = m) ∧
    (lookupNtt m.node_to_tri (nearestIdx m.verts p) = none →
      (project_new_point m p).2.node_to_tri =
        m.node_to_tri ++ [(nearestIdx m.verts p, [])]) := by
  refine ⟨?_, ?_, ?_, ?_, ?_⟩
  · rw [project_snd]
  · rw [project_snd]
  · rw [project_snd]
  · intro l hl
    rw [project_snd, dget_snd_of_some m.node_to_tri _ l hl]
  · intro hl
    rw [project_snd]
    show (dget m.node_to_tri (nearestIdx m.verts p)).2 = _
    rw [dget_snd_of_none _ _ hl]

/-- C3 witness: on the quad mesh with query `(0.5, 0.5, 5)` the nearest
vertex is a key, so the mesh is unchanged by the call. -/
theorem c3_project_frame_witness :
    (project_new_point quadMesh qA).2 = quadMesh := by
  apply (c3_project_frame quadMesh qA).2.2.2.1 [0, 1]
  rw [show quadMesh.verts = quadVerts from rfl, quad_nearest_A, quad_ntt]
  rfl

/-- C3 counterexample: querying the isolated-vertex mesh at the isolated
vertex's position mutates `node_to_tri` (the defaultdict read inserts the
key with an empty list), so the mesh state is NOT identical before and
after the call. -/
theorem c3_counterexample :
    (project_new_point isoMesh qI).2.node_to_tri ≠ isoMesh.node_to_tri := by
  rw [iso_after, iso_ntt]
  decide

open scoped Classical in
/-- C4: the candidate list is sorted by ascending `|d_t|`, and whenever
some candidate is accepted, `project_new_point` returns
`(pre - d_t * normal(t), t)` for the first accepted candidate `t` of that
order; candidates later in the order are never returned. -/
theorem c4_first_acceptance (m : Mesh) (p : Vec3) (l1 : List Nat) (t : Nat)
    (l2 : List Nat) (hdec : sortedTris m p = l1 ++ t :: l2)
    (hrej : ∀ s ∈ l1, ¬ insideTest m (projPt m p s) s)
    (hacc : insideTest m (projPt m p t) t) :
    (sortedTris m p).Sorted
      (fun a b => |cppVal m (preP m p) a| ≤ |cppVal m (preP m p) b|) ∧
    (project_new_point m p).1 = Except.ok (projPt m p t, (t : ℤ)) := by
  refine ⟨sortedTris_sorted m p, ?_⟩
  have hc : candTris m p ≠ [] := by
    intro h0
    have hperm := sortedTris_perm m p
    rw [h0] at hperm
    have h2 := hperm.eq_nil
    rw [hdec] at h2
    simp at h2
  rw [project_fst_of_ne m p hc, hdec,
    projectLoop_first_accept m (preP m p) l1 t l2 p hrej hacc]
  rfl

/-- C4 witness: on the quad mesh with query `(0.2, 0.2, 3)` the first
sorted candidate (triangle 0) is accepted immediately. -/
theorem c4_first_acceptance_witness :
    (project_new_point quadMesh qB).1 = Except.ok (⟨1/5, 1/5, 0⟩, 0) := by
  have hdec : sortedTris quadMesh qB = [] ++ 0 :: [1] := by
    rw [quad_sorted qB quad_cands_B]
    rfl
  have hpp : projPt quadMesh qB 0 = ⟨1/5, 1/5, 0⟩ := by
    unfold projPt
    rw [quad_cpp0, quad_pre_B, quad_normals_getD0]
    ext <;> norm_num
  have h := (c4_first_acceptance quadMesh qB [] 0 [1] hdec
    (by intro s hs; simp at hs) (by rw [hpp]; exact quad_inside_B0)).2
  rw [hpp] at h
  simpa using h

/-- C5: `project_new_point` raises (returns the error) exactly when the
candidate-triangle read for the nearest vertex yields the empty list; in
every other case it returns a `(projected_point, triangle_index)` pair. -/
theorem c5_error_iff_empty (m : Mesh) (p : Vec3) :
    ((project_new_point m p).1 = Except.error errMsg ↔ candTris m p = []) ∧
    (candTris m p ≠ [] →
      ∃ pt ti, (project_new_point m p).1 = Except.ok (pt, ti)) := by
  constructor
  · constructor
    · intro h
      by_contra hne
      rw [project_fst_of_ne m p hne] at h
      simp at h
    · intro h
      exact project_fst_of_empty m p h
  · intro h
    rw [project_fst_of_ne m p h]
    exact ⟨_, _, rfl⟩

/-- C5 witness: the isolated-vertex mesh raises at the isolated vertex,
and the quad mesh returns a pair. -/
theorem c5_error_iff_empty_witness :
    (project_new_point isoMesh qI).1 = Except.error errMsg ∧
    ∃ pt ti, (project_new_point quadMesh qA).1 = Except.ok (pt, ti) := by
  constructor
  · exact (c5_error_iff_empty isoMesh qI).1.mpr iso_cands
  · exact (c5_error_iff_empty quadMesh qA).2 (by rw [quad_cands_A]; simp)

/-- C6: after construction, `t ∈ node_to_tri[v]` iff `v` is one of
triangle `t`'s vertex indices in the connectivity array; and when each
triangle's three vertex indices are pairwise distinct, no adjacency list
contains a duplicate. -/
theorem c6_adjacency_inverse (vs : List Vec3) (cs : List (Nat × Nat × Nat)) :
    (∀ v t, memNtt (mkMesh vs cs).node_to_tri v t ↔
      t < cs.length ∧ v ∈ triIdx (cs.getD t (0, 0, 0))) ∧
    ((∀ c ∈ cs, c.1 ≠ c.2.1 ∧ c.1 ≠ c.2.2 ∧ c.2.1 ≠ c.2.2) →
      ∀ v, ((lookupNtt (mkMesh vs cs).node_to_tri v).getD []).Nodup) := by
  constructor
  · intro v t
    rw [mkMesh_node_to_tri]
    exact memNtt_buildNtt cs v t
  · intro hdist v
    rw [mkMesh_node_to_tri]
    cases hl : lookupNtt (buildNtt cs) v with
    | none => simp
    | some l =>
        have hinv := invLt_buildNtt cs hdist v l hl
        simp only [Option.getD_some]
        exact List.Pairwise.imp (fun hlt => Nat.ne_of_lt hlt) hinv.1

/-- C6 witness: on the quad mesh, triangle 1 is adjacent to vertex 0 and
vertex 0's adjacency list has no duplicates. -/
theorem c6_adjacency_inverse_witness :
    (memNtt quadMesh.node_to_tri 0 1 ↔
      1 < quadConn.length ∧ 0 ∈ triIdx (quadConn.getD 1 (0, 0, 0))) ∧
    ((lookupNtt quadMesh.node_to_tri 0).getD []).Nodup := by
  constructor
  · exact (c6_adjacency_inverse quadVerts quadConn).1 0 1
  · exact (c6_adjacency_inverse quadVerts quadConn).2 (by decide) 0

/-- C7: on the planar quad, the query `(0.5, 0.5, 5)` projects to
`(0.5, 0.5, 0)` with triangle index in `{t0, t1}` (the code yields `t0`),
and the query `(0.2, 0.2, 3)` projects to `(0.2, 0.2, 0)` with triangle
index `t0`. -/
theorem c7_concrete_scenario :
    (∃ ti : ℤ, (project_new_point quadMesh qA).1 =
        Except.ok (⟨1/2, 1/2, 0⟩, ti) ∧ (ti = 0 ∨ ti = 1)) ∧
    (project_new_point quadMesh qB).1 = Except.ok (⟨1/5, 1/5, 0⟩, 0) :=
  ⟨⟨0, quad_result_A, Or.inl rfl⟩, quad_result_B⟩

/-- C8: for a vertex that is the nearest mesh vertex to its own position,
has at least one incident triangle, and whose incident triangles are
non-degenerate with a non-zero summed normal, projecting the vertex
position returns a triangle from its adjacency together with exactly the
vertex position (exact arithmetic). -/
theorem c8_vertex_self_projection (vs : List Vec3) (cs : List (Nat × Nat × Nat))
    (v : Nat) (hv : v < vs.length)
    (hnear : nearestIdx vs (vs.getD v 0) = v)
    (hne : candTris (mkMesh vs cs) (vs.getD v 0) ≠ [])
    (hnd : ∀ t ∈ candTris (mkMesh vs cs) (vs.getD v 0),
      rawNormal vs (cs.getD t (0, 0, 0)) ≠ 0)
    (hsum : sumNormals (mkMesh vs cs) (candTris (mkMesh vs cs) (vs.getD v 0)) ≠ 0) :
    ∃ t, memNtt (mkMesh vs cs).node_to_tri v t ∧
      (project_new_point (mkMesh vs cs) (vs.getD v 0)).1 =
        Except.ok (vs.getD v 0, (t : ℤ)) := by
  have hcand := cand_props vs cs v hnear
  have hmem : ∀ t ∈ candTris (mkMesh vs cs) (vs.getD v 0),
      t < cs.length ∧ v ∈ triIdx (cs.getD t (0, 0, 0)) := by
    intro t ht
    rw [hcand] at ht
    exact (memNtt_buildNtt cs v t).mp ht
  obtain ⟨t0, rest, hsort⟩ : ∃ t0 rest,
      sortedTris (mkMesh vs cs) (vs.getD v 0) = t0 :: rest := by
    cases hs : sortedTris (mkMesh vs cs) (vs.getD v 0) with
    | nil =>
        exfalso
        apply hne
        have hperm := sortedTris_perm (mkMesh vs cs) (vs.getD v 0)
        rw [hs] at hperm
        exact hperm.symm.eq_nil
    | cons a l => exact ⟨a, l, rfl⟩
  have ht0cand : t0 ∈ candTris (mkMesh vs cs) (vs.getD v 0) :=
    (sortedTris_perm (mkMesh vs cs) (vs.getD v 0)).mem_iff.mp
      (by rw [hsort]; exact List.mem_cons_self _ _)
  obtain ⟨ht0l, ht0v⟩ := hmem t0 ht0cand
  have hpp : preP (mkMesh vs cs) (vs.getD v 0) -
      cppVal (mkMesh vs cs) (preP (mkMesh vs cs) (vs.getD v 0)) t0 •
        (mkMesh vs cs).normals.getD t0 0 = vs.getD v 0 := by
    rw [self_cpp vs cs v t0 hnear ht0l ht0v, zero_smul_vec, vec_sub_zero,
      self_pre vs cs v hnear]
  refine ⟨t0, ?_, ?_⟩
  · show t0 ∈ (lookupNtt (mkMesh vs cs).node_to_tri v).getD []
    rw [mkMesh_node_to_tri, ← hcand]
    exact ht0cand
  · rw [project_fst_of_ne _ _ hne, hsort, projectLoop_cons, hpp,
      if_pos (self_accept vs cs v t0 ht0l ht0v (hnd t0 ht0cand))]

/-- C8 witness: the quad mesh's vertex 0 self-projects to itself with a
triangle from its adjacency. -/
theorem c8_vertex_self_projection_witness :
    ∃ t, memNtt quadMesh.node_to_tri 0 t ∧
      (project_new_point quadMesh (quadVerts.getD 0 0)).1 =
        Except.ok (quadVerts.getD 0 0, (t : ℤ)) := by
  apply c8_vertex_self_projection quadVerts quadConn 0
  · show 0 < 4
    norm_num
  · show nearestIdx quadVerts ⟨0, 0, 0⟩ = 0
    exact quad_nearest_O
  · show candTris quadMesh ⟨0, 0, 0⟩ ≠ []
    rw [quad_cands_O]
    simp
  · intro t ht
    rw [show candTris (mkMesh quadVerts quadConn) (quadVerts.getD 0 0) = [0, 1]
      from quad_cands_O] at ht
    rcases (by simpa using ht : t = 0 ∨ t = 1) with rfl | rfl
    · rw [show quadConn.getD 0 (0, 0, 0) = (0, 1, 2) from rfl, quad_raw0]
      exact vec_ne_zero_of_z _ (by norm_num)
    · rw [show quadConn.getD 1 (0, 0, 0) = (0, 2, 3) from rfl, quad_raw1]
      exact vec_ne_zero_of_z _ (by norm_num)
  · rw [show candTris (mkMesh quadVerts quadConn) (quadVerts.getD 0 0) = [0, 1]
      from quad_cands_O,
      show sumNormals (mkMesh quadVerts quadConn) [0, 1] = ⟨0, 0, 2⟩
      from quad_sumN]
    exact vec_ne_zero_of_z _ (by norm_num)

open scoped Classical in
/-- C9: on a mesh with at least one vertex in which every vertex has an
incident triangle, no triangle is degenerate and every vertex's summed
normal is non-zero, `project_new_point` returns a pair for every query
point; and on any mesh whatsoever, the only possible raised failure is the
UnconnectedVertex error (with the candidate list empty). -/
theorem c9_total_and_only_unconnected (vs : List Vec3)
    (cs : List (Nat × Nat × Nat)) (p : Vec3) (hvs : vs ≠ [])
    (hconn : ∀ v, v < vs.length → (lookupNtt (buildNtt cs) v).getD [] ≠ [])
    (hnd : ∀ i, i < cs.length → rawNormal vs (cs.getD i (0, 0, 0)) ≠ 0)
    (hsum : ∀ v, v < vs.length →
      sumNormals (mkMesh vs cs) ((lookupNtt (buildNtt cs) v).getD []) ≠ 0) :
    (∃ pt ti, (project_new_point (mkMesh vs cs) p).1 = Except.ok (pt, ti)) ∧
    (∀ (m0 : Mesh) (q : Vec3) (e : String),
      (project_new_point m0 q).1 = Except.error e →
        e = errMsg ∧ candTris m0 q = []) := by
  constructor
  · have hlt : nearestIdx vs p < vs.length := nearestIdx_lt vs p hvs
    have hcne : candTris (mkMesh vs cs) p ≠ [] := by
      unfold candTris
      rw [mkMesh_verts, mkMesh_node_to_tri, dget_fst]
      exact hconn _ hlt
    rw [project_fst_of_ne _ _ hcne]
    exact ⟨_, _, rfl⟩
  · intro m0 q e he
    by_cases hc : candTris m0 q = []
    · rw [project_fst_of_empty m0 q hc] at he
      exact ⟨(show errMsg = e by simpa using he).symm, hc⟩
    · rw [project_fst_of_ne m0 q hc] at he
      simp at he

/-- C9 witness: the quad mesh satisfies all the well-formedness
hypotheses, so the query `(0.5, 0.5, 5)` returns a pair. -/
theorem c9_total_witness :
    ∃ pt ti, (project_new_point (mkMesh quadVerts quadConn) qA).1 =
      Except.ok (pt, ti) := by
  refine (c9_total_and_only_unconnected quadVerts quadConn qA ?_ ?_ ?_ ?_).1
  · show quadVerts ≠ []
    simp [quadVerts]
  · intro v hv
    have hv4 : v < 4 := by simpa [quadVerts] using hv
    interval_cases v <;> decide
  · intro i hi
    have hi2 : i < 2 := by simpa [quadConn] using hi
    interval_cases i
    · rw [show quadConn.getD 0 (0, 0, 0) = (0, 1, 2) from rfl, quad_raw0]
      exact vec_ne_zero_of_z _ (by norm_num)
    · rw [show quadConn.getD 1 (0, 0, 0) = (0, 2, 3) from rfl, quad_raw1]
      exact vec_ne_zero_of_z _ (by norm_num)
  · intro v hv
    have hv4 : v < 4 := by simpa [quadVerts] using hv
    interval_cases v
    · rw [show (lookupNtt (buildNtt quadConn) 0).getD [] = [0, 1] from rfl,
        show sumNormals (mkMesh quadVerts quadConn) [0, 1] = ⟨0, 0, 2⟩
        from quad_sumN]
      exact vec_ne_zero_of_z _ (by norm_num)
    · rw [show (lookupNtt (buildNtt quadConn) 1).getD [] = [0] from rfl,
        show sumNormals (mkMesh quadVerts quadConn) [0] =
          quadMesh.normals.getD 0 0 + 0 from rfl, quad_normals_getD0]
      exact vec_ne_zero_of_z _ (by norm_num)
    · rw [show (lookupNtt (buildNtt quadConn) 2).getD [] = [0, 1] from rfl,
        show sumNormals (mkMesh quadVerts quadConn) [0, 1] = ⟨0, 0, 2⟩
        from quad_sumN]
      exact vec_ne_zero_of_z _ (by norm_num)
    · rw [show (lookupNtt (buildNtt quadConn) 3).getD [] = [1] from rfl,
        show sumNormals (mkMesh quadVerts quadConn) [1] =
          quadMesh.normals.getD 1 0 + 0 from rfl, quad_normals_getD1]
      exact vec_ne_zero_of_z _ (by norm_num)

/-- C10: every adjacency list of a constructed mesh holds its triangle
indices in ascending order, strictly increasing when each triangle's
three vertex indices are pairwise distinct (triangles are scanned in
index order and appended). -/
theorem c10_adjacency_ascending (vs : List Vec3) (cs : List (Nat × Nat × Nat)) :
    (∀ v, ((lookupNtt (mkMesh vs cs).node_to_tri v).getD []).Sorted (· ≤ ·)) ∧
    ((∀ c ∈ cs, c.1 ≠ c.2.1 ∧ c.1 ≠ c.2.2 ∧ c.2.1 ≠ c.2.2) →
      ∀ v, ((lookupNtt (mkMesh vs cs).node_to_tri v).getD []).Sorted (· < ·)) := by
  constructor
  · intro v
    rw [mkMesh_node_to_tri]
    cases hl : lookupNtt (buildNtt cs) v with
    | none => simp
    | some l => simpa using (invLe_buildNtt cs v l hl).1
  · intro hdist v
    rw [mkMesh_node_to_tri]
    cases hl : lookupNtt (buildNtt cs) v with
    | none => simp
    | some l => simpa using (invLt_buildNtt cs hdist v l hl).1

/-- C10 witness: vertex 0's adjacency list on the quad mesh is strictly
ascending. -/
theorem c10_adjacency_ascending_witness :
    ((lookupNtt quadMesh.node_to_tri 0).getD []).Sorted (· < ·) :=
  (c10_adjacency_ascending quadVerts quadConn).2 (by decide) 0

end FractalTree
